import Mathlib

/-!
Verification of the ubirch-go-udp-client signing core against its
natural-language specification.

The Go sources are shallowly embedded: byte slices become `List Nat`,
Go strings become `String` (or `List Char` where Go's byte-level splitting
matters), fallible Go functions become `Except`/`Option`, and the per-uid
chained-signing state machine becomes explicit state passing.  Functions
whose bodies live in external libraries (ubirch-protocol-go, the Go standard
library) and are not part of this repository are modelled from the spec or
kept abstract as parameters; every such place is marked in its doc comment.
-/

/-- A byte is modelled as a natural number; byte slices as lists. -/
abbrev Bytes := List Nat

namespace UbirchClient

/-! ## Hints and envelope structures

From `src/main/handlers/signer.go` (the `operation` constants, `hintLookup`)
and the UPP structures passed to `Protocol.Sign`. -/

/-- Modelled from the spec: the hint constants `ubirch.Binary`,
`ubirch.Disable`, `ubirch.Enable`, `ubirch.Delete` are defined in the
ubirch-protocol-go library, which is not part of this repository.  The spec
fixes their byte values: BINARY=0x00, DISABLE=0xFA, ENABLE=0xFB, DELETE=0xFC. -/
inductive Hint where
  | binary
  | disable
  | enable
  | delete
  deriving DecidableEq, Repr

/-- Modelled from the spec: the one-byte value of each hint. -/
def Hint.byte : Hint → Nat
  | .binary => 0x00
  | .disable => 0xFA
  | .enable => 0xFB
  | .delete => 0xFC

/-- The UPP version tags `ubirch.Signed` and `ubirch.Chained`. -/
inductive Version where
  | signed
  | chained
  deriving DecidableEq, Repr

/-- The `ubirch.SignedUPP` structure built by `Signer.getSignedUPP`
(`src/main/handlers/signer.go`): version tag, uuid, hint and 32-byte payload. -/
structure SignedUPP where
  version : Version
  uuid : String
  hint : Hint
  payload : Bytes
  deriving DecidableEq, Repr

/-- The `ubirch.ChainedUPP` structure built by `Signer.GetChainedUPP`
(`src/main/handlers/signer.go`): version tag, uuid, previous signature,
hint and 32-byte payload.  `GetChainedUPP` always sets `Hint: ubirch.Binary`. -/
structure ChainedUPP where
  version : Version
  uuid : String
  prevSignature : Bytes
  hint : Hint
  payload : Bytes
  deriving DecidableEq, Repr

/-- `hintLookup` from `src/main/handlers/signer.go`: the map from the
`operation` string constants (`anchor`, `disable`, `enable`, `delete`) to
hints; a map lookup yields `none` for any other operation string. -/
def hintLookup : String → Option Hint
  | "anchor" => some .binary
  | "disable" => some .disable
  | "enable" => some .enable
  | "delete" => some .delete
  | _ => none

/-- `getOperation` from `src/main/handlers/services.go`: accepts exactly the
four operation strings and rejects everything else (the handler then answers
404). -/
def getOperation (opParam : String) : Except String String :=
  if opParam = "anchor" ∨ opParam = "disable" ∨ opParam = "enable" ∨ opParam = "delete" then
    Except.ok opParam
  else
    Except.error "invalid operation"

/-! ## Chained signing state machine (claims C1, C2)

`Signer.GetChainedUPP` (`src/main/handlers/signer.go`, and the
`ent.Identity`-based variant in `src/main/handlers/services.go`) builds a
`ubirch.ChainedUPP` whose `PrevSignature` field is the signature currently
stored for the uid.  The serialization and signing (`Protocol.Sign`), and the
per-uid critical section that commits the new signature
(`ContextManager.SendChainedUpp`, declared in
`src/main/handlers/protocol.go`), are not part of this repository, so they
are modelled from the spec below. -/

/-- Modelled from the spec: inside `Protocol.Sign` (ubirch-protocol-go, not
part of this repository) a chained UPP whose previous-signature field is
empty is the genesis link and is emitted with 64 zero bytes in that field. -/
def emittedPrevSig (storedSig : Bytes) : Bytes :=
  if storedSig = [] then List.replicate 64 0 else storedSig

/-- One chained-sign request as observed inside the per-uid critical section:
the 32-byte payload hash, the 64-byte ECDSA signature the crypto engine
produces for this envelope (signing is randomized, so the signature is an
input, not a function of the envelope), and whether the dispatch to the
attestation backend succeeded (2xx). -/
structure ChainReq where
  hash : Bytes
  sig : Bytes
  dispatchOK : Bool
  deriving DecidableEq, Repr

/-- The observable result of one pass through the critical section: the
previous-signature field carried by the emitted envelope, the signature
appended to it, and the stored chain tip after the pass. -/
structure ChainStepResult where
  envPrevSig : Bytes
  envSig : Bytes
  tipAfter : Bytes
  deriving DecidableEq, Repr

/-- Modelled from the spec: the implementation of the per-uid critical
section (`ContextManager.SendChainedUpp` behind the interface in
`src/main/handlers/protocol.go`; only its caller
`ChainingService.HandleRequest` is in the sources).  Per spec §4.6: read the
stored signature, build the chained envelope (genesis link uses 64 zero
bytes), sign, stage the new signature, dispatch, and commit the staged
signature only if the backend accepted the envelope. -/
def chainStep (tip : Bytes) (r : ChainReq) : ChainStepResult :=
  { envPrevSig := emittedPrevSig tip
    envSig := r.sig
    tipAfter := if r.dispatchOK then r.sig else tip }

/-- Sequential execution of chained requests for one uid (requests for the
same uid are serialized by the critical section). -/
def chainRun (tip : Bytes) : List ChainReq → List ChainStepResult
  | [] => []
  | r :: rest =>
    let step := chainStep tip r
    step :: chainRun step.tipAfter rest

/-! ## Backend dispatch outcome and `Signer.SendUPP` (claim C4) -/

/-- The outcome of `Client.sendToAuthService` as classified by
`Signer.SendUPP` (`src/main/handlers/signer.go`): an error satisfying
`os.IsTimeout`, any other transport error (connection refused, DNS failure,
...), or an HTTP response from the backend with its status code and body. -/
inductive DispatchOutcome where
  | timeout
  | netError
  | response (status : Nat) (content : Bytes)
  deriving DecidableEq, Repr

/-- The HTTP status code of the response `Signer.SendUPP`
(`src/main/handlers/signer.go` lines 113-143) returns to the caller:
timeout errors yield 504 (`http.StatusGatewayTimeout`), every other
transport error yields 500 (`http.StatusInternalServerError`), and when the
backend answered, `getSigningResponse` reuses the backend status code
verbatim. -/
def sendUPPStatus : DispatchOutcome → Nat
  | .timeout => 504
  | .netError => 500
  | .response status _ => status

/-! ## Signature length checks and identity storage (claim C5) -/

/-- Modelled from the spec: `Protocol.SignatureLength()` is provided by the
ubirch-protocol-go library (not part of this repository); for ECDSA P-256 it
is 64 bytes. -/
def signatureLength : Nat := 64

/-- `ExtendedProtocol.checkSignatureLen` (`src/main/protocol.go` lines
109-114, identical in `src/main/handlers/protocol.go` lines 90-95): rejects
every signature whose length differs from `SignatureLength()`. -/
def checkSignatureLen (signature : Bytes) : Except String Unit :=
  if signature.length ≠ signatureLength then
    Except.error "invalid signature length"
  else
    Except.ok ()

/-- `ExtendedProtocol.GetSignature` (`src/main/protocol.go` lines 86-98):
reads the stored signature from the context manager and passes it through
`checkSignatureLen`; the argument is the value the context manager returned. -/
def getSignature (stored : Bytes) : Except String Bytes :=
  match checkSignatureLen stored with
  | .error e => .error e
  | .ok _ => .ok stored

/-- The identity record `ent.Identity` handled by
`ExtendedProtocol.StoreIdentity` (`src/main/handlers/protocol.go`). -/
structure Identity where
  uid : String
  privateKey : Bytes
  publicKey : Bytes
  signature : Bytes
  authToken : String
  deriving DecidableEq, Repr

/-- `ExtendedProtocol.StoreIdentity` (`src/main/handlers/protocol.go` lines
64-84): validates token, signature length, and key presence, then delegates
to the context manager (whose implementation is not part of this repository;
its success is modelled as `ok`). -/
def storeIdentity (id : Identity) : Except String Unit :=
  if id.authToken.length = 0 then
    Except.error "empty token"
  else
    match checkSignatureLen id.signature with
    | .error e => .error e
    | .ok _ =>
      if id.privateKey.length = 0 then
        Except.error "private key is empty"
      else if id.publicKey.length = 0 then
        Except.error "public key is empty"
      else
        Except.ok ()

/-- Whether an `Except` value is a success. -/
def exOk {ε α : Type} : Except ε α → Bool
  | .ok _ => true
  | .error _ => false

/-! ## Authentication (claims C8, C3) -/

/-- `CheckAuth` from `src/main/handlers/httphelper/common.go` lines 83-91:
compares the `X-Auth-Token` header against the stored token with `!=` and
fails with the message `invalid auth token`. -/
def checkAuth (headerAuthToken actualAuth : String) : Except String String :=
  if actualAuth ≠ headerAuthToken then
    Except.error "invalid auth token"
  else
    Except.ok headerAuthToken

/-- The per-uid persistent state visible to the handlers: stored auth tokens,
chain-tip signatures and private keys, keyed by uid.  The concrete context
managers (file- or SQL-backed) are not part of this repository; association
lists model their uid-keyed lookups. -/
structure Store where
  authTokens : List (String × String)
  signatures : List (String × Bytes)
  privKeys : List (String × Bytes)
  deriving DecidableEq, Repr

/-- `ExtendedProtocol.GetAuthToken` (`src/main/handlers/protocol.go` lines
97-108): reads the token from the context manager (modelled as an
association-list lookup, the concrete manager not being part of this
repository) and rejects empty tokens. -/
def getAuthToken (st : Store) (uid : String) : Except String String :=
  match st.authTokens.lookup uid with
  | none => Except.error "unknown uuid"
  | some t => if t.length = 0 then Except.error "empty auth token" else Except.ok t

/-- An HTTP response as far as the claims are concerned: status code and a
plain-text body (for error responses, the `http.Error` body is the error
message). -/
structure Response where
  status : Nat
  body : String
  deriving DecidableEq, Repr

/-! ## The signed-update route (claim C3)

`SigningService.HandleRequest` (`src/main/handlers/services.go` lines
75-113) runs: GetUUID, GetAuthToken, CheckAuth, getOperation, GetHash, then
`Signer.Sign`, which fetches the private key and calls
`Signer.getSignedUPP`.  The whole path performs no write to the store: no
`SetSignature` (or any other setter) is called anywhere on it. -/

/-- `Signer.getSignedUPP` (`src/main/handlers/signer.go` lines 96-111): looks
the operation up in `hintLookup` and builds a `ubirch.SignedUPP` with
`Version: ubirch.Signed` around the 32-byte hash.  The serialization and
ECDSA signing performed by `Protocol.Sign` happen in the ubirch-protocol-go
library and do not alter the envelope's fields, so the built structure is
returned. -/
def getSignedUPP (id : String) (hash : Bytes) (op : String) : Except String SignedUPP :=
  match hintLookup op with
  | none => Except.error "invalid operation"
  | some hint =>
    Except.ok { version := .signed, uuid := id, hint := hint, payload := hash }

/-- The result of the signed-update handler: the store after the request, the
envelope handed to the backend (if one was built), and the HTTP response. -/
structure SignedHandleResult where
  store : Store
  envelope : Option SignedUPP
  response : Response
  deriving Repr

/-- `SigningService.HandleRequest` followed by `Signer.Sign`
(`src/main/handlers/services.go` lines 75-113 and
`src/main/handlers/signer.go` lines 63-82), with the request-body hash
extraction result and the backend dispatch outcome as inputs.  The store is
threaded through every step; no step writes to it.  Status codes follow the
source: 500 for a failed token read or private-key read, 401 for a failed
auth check, 404 for an unknown operation, 400 for a failed hash extraction,
and the `SendUPP` status otherwise. -/
def signingHandleRequest (st : Store) (uid : String) (headerToken : String)
    (opParam : String) (hashRes : Except String Bytes)
    (outcome : DispatchOutcome) : SignedHandleResult :=
  match getAuthToken st uid with
  | .error e => ⟨st, none, ⟨500, e⟩⟩
  | .ok idAuth =>
    match checkAuth headerToken idAuth with
    | .error e => ⟨st, none, ⟨401, e⟩⟩
    | .ok _ =>
      match getOperation opParam with
      | .error e => ⟨st, none, ⟨404, e⟩⟩
      | .ok op =>
        match hashRes with
        | .error e => ⟨st, none, ⟨400, e⟩⟩
        | .ok hash =>
          match st.privKeys.lookup uid with
          | none => ⟨st, none, ⟨500, "could not fetch private key"⟩⟩
          | some _ =>
            match getSignedUPP uid hash op with
            | .error _ => ⟨st, none, ⟨500, "could not create signed UPP"⟩⟩
            | .ok upp => ⟨st, some upp, ⟨sendUPPStatus outcome, "signing response"⟩⟩

/-! ## The chained route handler (claim C8) -/

/-- The result of the chained-anchor handler: the HTTP response and whether
the request reached the envelope-building step. -/
structure ChainHandleResult where
  response : Response
  reachedSigning : Bool
  deriving DecidableEq, Repr

/-- `ChainingService.HandleRequest` (`src/main/handlers/services.go` lines
24-67): GetUUID, GetAuthToken, CheckAuth, GetHash, then hands the request to
`ContextManager.SendChainedUpp` (whose implementation is not part of this
repository and is therefore an abstract parameter here).  Auth failure
answers 401 with the error's message as plain-text body, before any envelope
is built. -/
def chainingHandleRequest (st : Store) (uid : String) (headerToken : String)
    (hashRes : Except String Bytes)
    (sendChained : Bytes → Response) : ChainHandleResult :=
  match getAuthToken st uid with
  | .error e => ⟨⟨500, e⟩, false⟩
  | .ok idAuth =>
    match checkAuth headerToken idAuth with
    | .error e => ⟨⟨401, e⟩, false⟩
    | .ok _ =>
      match hashRes with
      | .error e => ⟨⟨400, e⟩, false⟩
      | .ok hash => ⟨sendChained hash, true⟩

/-! ## Hash extraction from `/hash` requests (claim C7) -/

/-- `vars.HashLen` from `src/main/vars/vars.go`. -/
def hashLen : Nat := 32

/-- The shared length check at the end of `getHashFromHashRequest`
(`src/main/handlers/httphelper/common.go` lines 153-160, the
`application/octet-stream` case into which the `text/plain` case falls
through): exactly `vars.HashLen` bytes are accepted. -/
def checkHashLen (data : Bytes) : Except String Bytes :=
  if data.length ≠ hashLen then
    Except.error "invalid SHA256 hash size"
  else
    Except.ok data

/-- `getHashFromHashRequest` (`src/main/handlers/httphelper/common.go` lines
138-165).  The arguments `ct` and `cte` are the `Content-Type` and
`Content-Transfer-Encoding` header values as the `ContentType` and
`ContentEncoding` helpers return them, i.e. already lower-cased
(`strings.ToLower`).  For `text/plain`, the body is hex-decoded when the
transfer encoding is `hex` and base64-decoded otherwise, then falls through
to the length check; for `application/octet-stream` the raw body goes to the
length check; every other content type is rejected.  `hex.DecodeString` and
`base64.StdEncoding.DecodeString` are Go standard-library functions (not
part of this repository) and are abstract decoder parameters returning
`none` on malformed input. -/
def getHashFromHashRequest (hexDecode b64Decode : Bytes → Option Bytes)
    (ct cte : String) (body : Bytes) : Except String Bytes :=
  if ct = "text/plain" then
    if cte = "hex" then
      match hexDecode body with
      | none => Except.error "decoding hex encoded hash failed"
      | some d => checkHashLen d
    else
      match b64Decode body with
      | none => Except.error "decoding base64 encoded hash failed"
      | some d => checkHashLen d
  else if ct = "application/octet-stream" then
    checkHashLen body
  else
    Except.error "invalid content-type for hash"

/-! ## Configuration loading (claim C10)

From `src/main/config.go` (the version whose `Config.Load` spans lines 56-81
and whose `setDefaultURLs` spans lines 124-153).  Strings are modelled as
`List Char` because the decisive step is Go's byte-level
`strings.Split(c.Niomon, ".")[1]`. -/

/-- Go's `strings.Split(s, ".")`: splits around each occurrence of the dot;
`Split("", ".")` is `[""]`, and a string without a dot yields a one-element
list. -/
def goSplitDot : List Char → List (List Char)
  | [] => [[]]
  | c :: rest =>
    if c = '.' then
      [] :: goSplitDot rest
    else
      match goSplitDot rest with
      | [] => [[c]]
      | h :: t => (c :: h) :: t

/-- Go's `strings.TrimSuffix`. -/
def goTrimSuffix (s suf : List Char) : List Char :=
  if suf.isSuffixOf s then s.take (s.length - suf.length) else s

/-- The outcome of running the pure part of `Config.Load`: a Go runtime
panic (index out of range), a returned error, or a loaded configuration. -/
inductive LoadOutcome (α : Type) where
  | panicked (msg : String)
  | failed (msg : String)
  | loaded (c : α)
  deriving DecidableEq, Repr

/-- Whether a load outcome is a Go runtime panic. -/
def LoadOutcome.isPanic {α : Type} : LoadOutcome α → Bool
  | .panicked _ => true
  | _ => false

/-- The fields of `Config` (`src/main/config.go` lines 40-54) that
`checkMandatory` and `setDefaultURLs` read or write.  `secretBytes` is the
already base64-decoded secret (`SecretBytes`). -/
structure GoConfig where
  devices : List (String × String)
  secretBytes : Bytes
  env : List Char
  niomon : List Char
  keyService : List Char
  verifyService : List Char
  deriving DecidableEq, Repr

/-- `KEY_URL` instantiated at an environment: Go
`fmt.Sprintf("https://key.%s.ubirch.com/api/keyService/v1/pubkey", env)`. -/
def keyURL (env : List Char) : List Char :=
  "https://key.".data ++ env ++ ".ubirch.com/api/keyService/v1/pubkey".data

/-- `NIOMON_URL` instantiated at an environment. -/
def niomonURL (env : List Char) : List Char :=
  "https://niomon.".data ++ env ++ ".ubirch.com/".data

/-- `VERIFY_URL` instantiated at an environment. -/
def verifyURL (env : List Char) : List Char :=
  "https://verify.".data ++ env ++ ".ubirch.com/api/upp".data

/-- `Config.checkMandatory` (`src/main/config.go` lines 99-111): at least one
device and a 16-byte decoded secret. -/
def checkMandatory (c : GoConfig) : Except String Unit :=
  if c.devices.length = 0 then
    Except.error "There are no devices authorized to use this client."
  else if c.secretBytes.length ≠ 16 then
    Except.error "secret length must be 16 bytes"
  else
    Except.ok ()

/-- The first defaulting step of `setDefaultURLs`: an empty `Env` becomes
`prod`. -/
def defaultedEnv (c : GoConfig) : List Char :=
  if c.env = [] then "prod".data else c.env

/-- The second defaulting step of `setDefaultURLs`: an empty `Niomon` URL is
derived from the (defaulted) environment. -/
def defaultedNiomon (c : GoConfig) : List Char :=
  if c.niomon = [] then niomonURL (defaultedEnv c) else c.niomon

/-- `Config.setDefaultURLs` (`src/main/config.go` lines 124-153): default the
environment to `prod`, default the Niomon URL from the environment, then
re-derive the environment as `strings.Split(c.Niomon, ".")[1]` — an indexing
step that panics when the split yields fewer than two parts — validate it
against the three known stages, and fill in the remaining service URLs. -/
def setDefaultURLs (c : GoConfig) : LoadOutcome GoConfig :=
  match (goSplitDot (defaultedNiomon c))[1]? with
  | none => .panicked "runtime error: index out of range"
  | some env1 =>
    if ¬(env1 = "dev".data ∨ env1 = "demo".data ∨ env1 = "prod".data) then
      .failed "invalid UBIRCH backend environment"
    else
      .loaded { c with env := env1, niomon := defaultedNiomon c,
                       keyService := if c.keyService = [] then keyURL env1
                         else goTrimSuffix c.keyService "/mpack".data,
                       verifyService := if c.verifyService = [] then verifyURL env1
                         else c.verifyService }

/-- The pure tail of `Config.Load` (`src/main/config.go` lines 56-81) after
the configuration file or environment has been parsed into a `Config` value
and the secret has been base64-decoded: `checkMandatory` followed by
`setDefaultURLs` (`setDefaultTLS` in between only fills in TLS certificate
file names and cannot fail or panic, so it is omitted from the model). -/
def configLoadChecks (c : GoConfig) : LoadOutcome GoConfig :=
  match checkMandatory c with
  | .error e => .failed e
  | .ok _ => setDefaultURLs c

/-! ## JSON canonicalization (claim C6)

`GetSortedCompactJSON` (`src/main/handlers/httphelper/common.go` lines
33-54) parses the request body with `json.Unmarshal` into a generic value
(objects become `map[string]interface{}` — keys unique — arrays become
`[]interface{}`), re-serializes it with `jsonMarshal` (lines 167-173;
`json.Marshal`, which emits object keys in sorted order), and removes
whitespace with `json.Compact` (`Marshal` output carries none, so compact
serialization models the composition).  The generic post-`Unmarshal` value
is embedded as `Json` below; numbers (Go `float64`) are kept as their
rendered literal, and the standard library's string escaping is modelled as
plain quoting, neither being sensitive to key order. -/

/-- The generic JSON value produced by `json.Unmarshal` into `interface{}`.
Object entries are an association list; Go's map semantics make their keys
unique, which the well-formedness predicate `jsonWF` captures. -/
inductive Json where
  | null : Json
  | bool : Bool → Json
  | num : String → Json
  | str : String → Json
  | arr : List Json → Json
  | obj : List (String × Json) → Json

/-- Key order used by `json.Marshal` when serializing a map: the non-strict
lexicographic order on the entry's key. -/
def keyLE (p q : String × Json) : Prop := p.1 ≤ q.1

instance : DecidableRel keyLE := fun p q => inferInstanceAs (Decidable (p.1 ≤ q.1))

instance : IsTotal (String × Json) keyLE := ⟨fun p q => le_total p.1 q.1⟩

instance : IsTrans (String × Json) keyLE := ⟨fun _ _ _ h₁ h₂ => le_trans h₁ h₂⟩

/-- Strict key order, used to identify sorted entry lists with distinct
keys. -/
def keyLT (p q : String × Json) : Prop := p.1 < q.1

instance : IsAntisymm (String × Json) keyLT := ⟨fun _ _ h₁ h₂ => (lt_asymm h₁ h₂).elim⟩

/-- Sorting an object's entries by key, as `json.Marshal` does.  The standard
library's sorting algorithm is irrelevant to the output; insertion sort
models it. -/
def sortEntries (l : List (String × Json)) : List (String × Json) :=
  l.insertionSort keyLE

/-- Uniqueness of a key list, as guaranteed by Go's `map[string]interface{}`. -/
def keysNodup : List String → Bool
  | [] => true
  | k :: ks => (!ks.contains k) && keysNodup ks

mutual

/-- Well-formedness of a post-`Unmarshal` value: every object, at every
depth, has pairwise-distinct keys (a `map[string]interface{}` cannot hold
duplicates). -/
def jsonWF : Json → Bool
  | .null => true
  | .bool _ => true
  | .num _ => true
  | .str _ => true
  | .arr l => jsonWFList l
  | .obj l => keysNodup (l.map Prod.fst) && jsonWFEntries l

/-- Well-formedness of every element of an array. -/
def jsonWFList : List Json → Bool
  | [] => true
  | j :: t => jsonWF j && jsonWFList t

/-- Well-formedness of every value of an object. -/
def jsonWFEntries : List (String × Json) → Bool
  | [] => true
  | (_, v) :: t => jsonWF v && jsonWFEntries t

end

mutual

/-- The canonical form of a value: every object's entries recursively
canonicalized and sorted by key.  This is the value whose plain serialization
`json.Marshal` emits. -/
def canon : Json → Json
  | .null => .null
  | .bool b => .bool b
  | .num s => .num s
  | .str s => .str s
  | .arr l => .arr (canonList l)
  | .obj l => .obj (sortEntries (canonEntries l))

/-- Canonical form of each element of an array, in order. -/
def canonList : List Json → List Json
  | [] => []
  | j :: t => canon j :: canonList t

/-- Canonical form of each value of an object, keys untouched. -/
def canonEntries : List (String × Json) → List (String × Json)
  | [] => []
  | (k, v) :: t => (k, canon v) :: canonEntries t

end

mutual

/-- Compact JSON serialization (no whitespace), as emitted by `json.Marshal`
followed by `json.Compact`. -/
def serialize : Json → String
  | .null => "null"
  | .bool b => if b then "true" else "false"
  | .num s => s
  | .str s => "\"" ++ s ++ "\""
  | .arr l => "[" ++ serializeList l ++ "]"
  | .obj l => "\x7b" ++ serializeEntries l ++ "\x7d"

/-- Comma-separated serialization of array elements. -/
def serializeList : List Json → String
  | [] => ""
  | [j] => serialize j
  | j :: t => serialize j ++ "," ++ serializeList t

/-- Comma-separated serialization of object entries. -/
def serializeEntries : List (String × Json) → String
  | [] => ""
  | [(k, v)] => "\"" ++ k ++ "\":" ++ serialize v
  | (k, v) :: t => "\"" ++ k ++ "\":" ++ serialize v ++ "," ++ serializeEntries t

end

/-- `GetSortedCompactJSON` at the value level: canonical form, serialized
compactly. -/
def canonicalize (j : Json) : String :=
  serialize (canon j)

/-- The `application/json` branch of `getHashFromDataRequest`
(`src/main/handlers/httphelper/common.go` lines 119-136): the payload hash
of a JSON body is SHA-256 — a standard-library function, abstract here — of
the canonicalized body. -/
def jsonPayloadHash (sha256 : String → Bytes) (body : Json) : Bytes :=
  sha256 (canonicalize body)

mutual

/-- Key-permutation at every nesting depth: `JPerm a b` holds when `b` is
`a` with the entries of each object reordered arbitrarily (the spec's
`permute_keys`).  Arrays keep their element order. -/
inductive JPerm : Json → Json → Prop where
  | null : JPerm .null .null
  | bool (b : Bool) : JPerm (.bool b) (.bool b)
  | num (s : String) : JPerm (.num s) (.num s)
  | str (s : String) : JPerm (.str s) (.str s)
  | arr {l l' : List Json} : JPermList l l' → JPerm (.arr l) (.arr l')
  | obj {l l' : List (String × Json)} : JPermEntries l l' → JPerm (.obj l) (.obj l')

/-- Pointwise key-permutation of array elements. -/
inductive JPermList : List Json → List Json → Prop where
  | nil : JPermList [] []
  | cons {a a' : Json} {l l' : List Json} :
      JPerm a a' → JPermList l l' → JPermList (a :: l) (a' :: l')

/-- Permutation of object entries combined with key-permutation inside the
values; the constructors mirror `List.Perm`. -/
inductive JPermEntries : List (String × Json) → List (String × Json) → Prop where
  | nil : JPermEntries [] []
  | cons {k : String} {v v' : Json} {l l' : List (String × Json)} :
      JPerm v v' → JPermEntries l l' → JPermEntries ((k, v) :: l) ((k, v') :: l')
  | swap {p q : String × Json} {l : List (String × Json)} :
      JPermEntries (p :: q :: l) (q :: p :: l)
  | trans {l₁ l₂ l₃ : List (String × Json)} :
      JPermEntries l₁ l₂ → JPermEntries l₂ l₃ → JPermEntries l₁ l₃

end

/-! ### Lemmas about sorting object entries -/

theorem keysNodup_iff (ks : List String) : keysNodup ks = true ↔ ks.Nodup := by
  induction ks with
  | nil => simp [keysNodup]
  | cons k t ih => simp [keysNodup, ih, List.nodup_cons]

theorem canonEntries_map_fst (l : List (String × Json)) :
    (canonEntries l).map Prod.fst = l.map Prod.fst := by
  induction l with
  | nil => simp [canonEntries]
  | cons p t ih =>
    obtain ⟨k, v⟩ := p
    simp [canonEntries, ih]

theorem sortEntries_perm (l : List (String × Json)) : (sortEntries l).Perm l :=
  List.perm_insertionSort keyLE l

theorem sorted_keyLT_sortEntries {A : List (String × Json)}
    (hnd : (A.map Prod.fst).Nodup) : List.Sorted keyLT (sortEntries A) := by
  have hle : List.Sorted keyLE (sortEntries A) := List.sorted_insertionSort keyLE A
  have hnd' : ((sortEntries A).map Prod.fst).Nodup :=
    (((sortEntries_perm A).map Prod.fst).nodup_iff).mpr hnd
  have hne : List.Pairwise (fun p q : String × Json => p.1 ≠ q.1) (sortEntries A) :=
    List.pairwise_map.mp hnd'
  exact (List.Pairwise.and hle hne).imp fun h => lt_of_le_of_ne h.1 h.2

theorem sortEntries_eq_of_perm {A B : List (String × Json)} (h : A.Perm B)
    (hnd : (A.map Prod.fst).Nodup) : sortEntries A = sortEntries B := by
  have hndB : (B.map Prod.fst).Nodup := ((h.map Prod.fst).nodup_iff).mp hnd
  have hpAB : (sortEntries A).Perm (sortEntries B) :=
    (sortEntries_perm A).trans (h.trans (sortEntries_perm B).symm)
  exact List.eq_of_perm_of_sorted hpAB (sorted_keyLT_sortEntries hnd)
    (sorted_keyLT_sortEntries hndB)

/-! ### Canonical forms are invariant under key permutation -/

/-- Workhorse for claim C6, proved by mutual induction over the
key-permutation derivation: under the unique-keys well-formedness that Go's
maps guarantee, canonical forms are invariant, key lists permute, and
well-formedness transports. -/
theorem jperm_canon {a b : Json} (h : JPerm a b) :
    jsonWF a = true → canon a = canon b ∧ jsonWF b = true := by
  refine @JPerm.rec
    (fun a b _ => jsonWF a = true → canon a = canon b ∧ jsonWF b = true)
    (fun l l' _ => jsonWFList l = true → canonList l = canonList l' ∧ jsonWFList l' = true)
    (fun l l' _ => (keysNodup (l.map Prod.fst) && jsonWFEntries l) = true →
      sortEntries (canonEntries l) = sortEntries (canonEntries l') ∧
      (l.map Prod.fst).Perm (l'.map Prod.fst) ∧ jsonWFEntries l' = true)
    ?_ ?_ ?_ ?_ ?_ ?_ ?_ ?_ ?_ ?_ ?_ ?_ a b h
  · exact fun hw => ⟨rfl, hw⟩
  · exact fun b hw => ⟨rfl, hw⟩
  · exact fun s hw => ⟨rfl, hw⟩
  · exact fun s hw => ⟨rfl, hw⟩
  · -- arr
    intro l l' _ ih hw
    simp only [jsonWF] at hw ⊢
    obtain ⟨he, hw'⟩ := ih hw
    exact ⟨by simp [canon, he], hw'⟩
  · -- obj
    intro l l' _ ih hw
    simp only [jsonWF] at hw ⊢
    obtain ⟨he, hp, hw'⟩ := ih hw
    have hk : keysNodup (l.map Prod.fst) = true := by
      rcases (Bool.and_eq_true _ _).mp hw with ⟨hk, _⟩
      exact hk
    have hk' : keysNodup (l'.map Prod.fst) = true :=
      (keysNodup_iff _).mpr (hp.nodup_iff.mp ((keysNodup_iff _).mp hk))
    refine ⟨by simp [canon, he], ?_⟩
    simp [hk', hw']
  · -- JPermList.nil
    exact fun hw => ⟨rfl, hw⟩
  · -- JPermList.cons
    intro a a' l l' _ _ iha ihl hw
    rcases (Bool.and_eq_true _ _).mp (by simpa [jsonWFList] using hw) with ⟨hwa, hwl⟩
    obtain ⟨hea, hwa'⟩ := iha hwa
    obtain ⟨hel, hwl'⟩ := ihl hwl
    exact ⟨by simp [canonList, hea, hel], by simp [jsonWFList, hwa', hwl']⟩
  · -- JPermEntries.nil
    exact fun hw => ⟨rfl, .nil, ((Bool.and_eq_true _ _).mp hw).2⟩
  · -- JPermEntries.cons
    intro k v v' l l' _ _ ihv ihl hw
    rcases (Bool.and_eq_true _ _).mp hw with ⟨hknd, hwE⟩
    rcases (Bool.and_eq_true _ _).mp (by simpa [jsonWFEntries] using hwE) with ⟨hwv, hwl⟩
    have hkc : (l.map Prod.fst).contains k = false ∧ keysNodup (l.map Prod.fst) = true := by
      simpa [keysNodup, Bool.and_eq_true] using hknd
    obtain ⟨hev, hwv'⟩ := ihv hwv
    obtain ⟨hel, hpl, hwl'⟩ := ihl (by simp [hkc.2, hwl])
    have hknotmem : k ∉ l.map Prod.fst := by
      have := hkc.1
      simp_all
    have hndcons : (((k, canon v') :: canonEntries l).map Prod.fst).Nodup := by
      simp only [List.map_cons, canonEntries_map_fst]
      exact List.nodup_cons.mpr ⟨hknotmem, (keysNodup_iff _).mp hkc.2⟩
    have hpc : ((k, canon v') :: canonEntries l).Perm ((k, canon v') :: canonEntries l') := by
      refine List.Perm.cons _ ?_
      exact ((sortEntries_perm (canonEntries l)).symm.trans
        (hel ▸ sortEntries_perm (canonEntries l')))
    refine ⟨?_, ?_, ?_⟩
    · show sortEntries (canonEntries ((k, v) :: l)) = sortEntries (canonEntries ((k, v') :: l'))
      simp only [canonEntries, hev]
      exact sortEntries_eq_of_perm hpc hndcons
    · simpa using List.Perm.cons k hpl
    · simp [jsonWFEntries, hwv', hwl']
  · -- JPermEntries.swap
    intro p q l hw
    obtain ⟨kp, vp⟩ := p
    obtain ⟨kq, vq⟩ := q
    rcases (Bool.and_eq_true _ _).mp hw with ⟨hknd, hwE⟩
    have hnd : (((kp, vp) :: (kq, vq) :: l).map Prod.fst).Nodup :=
      (keysNodup_iff _).mp hknd
    have hndc : (((kp, canon vp) :: (kq, canon vq) :: canonEntries l).map Prod.fst).Nodup := by
      simp only [List.map_cons, canonEntries_map_fst]
      simpa only [List.map_cons] using hnd
    refine ⟨?_, ?_, ?_⟩
    · show sortEntries (canonEntries ((kp, vp) :: (kq, vq) :: l)) =
        sortEntries (canonEntries ((kq, vq) :: (kp, vp) :: l))
      simp only [canonEntries]
      exact sortEntries_eq_of_perm (List.Perm.swap _ _ _) hndc
    · simpa using List.Perm.swap (kq) (kp) (l.map Prod.fst)
    · have hsplit : jsonWF vp = true ∧ jsonWF vq = true ∧ jsonWFEntries l = true := by
        simpa [jsonWFEntries] using hwE
      simp [jsonWFEntries, hsplit.1, hsplit.2.1, hsplit.2.2]
  · -- JPermEntries.trans
    intro l₁ l₂ l₃ _ _ ih₁ ih₂ hw
    rcases (Bool.and_eq_true _ _).mp hw with ⟨hk₁, hw₁⟩
    obtain ⟨he₁, hp₁, hw₂⟩ := ih₁ hw
    have hk₂ : keysNodup (l₂.map Prod.fst) = true :=
      (keysNodup_iff _).mpr (hp₁.nodup_iff.mp ((keysNodup_iff _).mp hk₁))
    obtain ⟨he₂, hp₂, hw₃⟩ := ih₂ (by simp [hk₂, hw₂])
    exact ⟨he₁.trans he₂, hp₁.trans hp₂, hw₃⟩

/-! ## Further helper lemmas -/

theorem string_length_ne_zero {s : String} (h : s ≠ "") : s.length ≠ 0 := by
  intro h0
  apply h
  have hd : s.data.length = 0 := by rw [String.length_data, h0]
  have hnil : s.data = [] := List.length_eq_zero.mp hd
  cases s
  simp_all

theorem goSplitDot_ne_nil (l : List Char) : goSplitDot l ≠ [] := by
  induction l with
  | nil => simp [goSplitDot]
  | cons c rest ih =>
    simp only [goSplitDot]
    split
    · simp
    · cases hgr : goSplitDot rest with
      | nil => simp
      | cons hd tl => simp

theorem goSplitDot_length_ge_two {l : List Char} (h : '.' ∈ l) :
    2 ≤ (goSplitDot l).length := by
  induction l with
  | nil => cases h
  | cons c rest ih =>
    simp only [goSplitDot]
    by_cases hc : c = '.'
    · have hpos : 0 < (goSplitDot rest).length :=
        List.length_pos.mpr (goSplitDot_ne_nil rest)
      simp only [if_pos hc, List.length_cons]
      omega
    · have hm : '.' ∈ rest := by
        rcases List.mem_cons.mp h with h1 | h2
        · exact absurd h1.symm hc
        · exact h2
      have h2 := ih hm
      simp only [if_neg hc]
      cases hgr : goSplitDot rest with
      | nil => exact absurd hgr (goSplitDot_ne_nil rest)
      | cons hd tl =>
        rw [hgr] at h2
        simp only [List.length_cons] at h2 ⊢
        omega

/-- Auxiliary chain invariant, generalized over the starting tip: along an
all-successful run, the previous-signature fields are the starting tip's
emitted field followed by all but the last of the emitted signatures. -/
theorem chainRun_prevSig_aux (reqs : List ChainReq) :
    ∀ tip, (∀ r ∈ reqs, r.dispatchOK = true) → (∀ r ∈ reqs, r.sig ≠ []) →
    (chainRun tip reqs).map ChainStepResult.envPrevSig =
      (emittedPrevSig tip :: (chainRun tip reqs).map ChainStepResult.envSig).dropLast := by
  induction reqs with
  | nil => intro tip _ _; simp [chainRun]
  | cons r rest ih =>
    intro tip hok hsig
    have hokr : r.dispatchOK = true := hok r (List.mem_cons_self r rest)
    have hsigr : r.sig ≠ [] := hsig r (List.mem_cons_self r rest)
    have hstep : chainStep tip r = ⟨emittedPrevSig tip, r.sig, r.sig⟩ := by
      simp [chainStep, hokr]
    have ihr := ih r.sig (fun x hx => hok x (List.mem_cons_of_mem r hx))
      (fun x hx => hsig x (List.mem_cons_of_mem r hx))
    have hemit : emittedPrevSig r.sig = r.sig := by simp [emittedPrevSig, hsigr]
    rw [hemit] at ihr
    simp only [chainRun, hstep, List.map_cons, List.dropLast_cons₂]
    exact congrArg (List.cons (emittedPrevSig tip)) ihr

/-! ## Claim theorems -/

/-- C1: for every uid (the chain state is kept per uid and requests for one
uid are serialized), along a run of successful chained sign requests
starting from an empty stored signature, the sequence of previous-signature
fields in the emitted chained envelopes equals the sequence of signature
fields of the preceding chained envelopes, and the first envelope carries
exactly 64 zero bytes as its previous-signature field. -/
theorem chain_monotonicity (reqs : List ChainReq)
    (hok : ∀ r ∈ reqs, r.dispatchOK = true)
    (hsig : ∀ r ∈ reqs, r.sig ≠ [])
    (hne : reqs ≠ []) :
    (chainRun [] reqs).map ChainStepResult.envPrevSig =
      List.replicate 64 0 ::
        ((chainRun [] reqs).map ChainStepResult.envSig).dropLast := by
  have haux := chainRun_prevSig_aux reqs [] hok hsig
  have hzero : emittedPrevSig ([] : Bytes) = List.replicate 64 0 := by
    simp [emittedPrevSig]
  rw [hzero] at haux
  cases hr : reqs with
  | nil => exact absurd hr hne
  | cons r rest =>
    subst hr
    have hokr : r.dispatchOK = true := hok r (List.mem_cons_self r rest)
    have hstep : chainStep [] r = ⟨emittedPrevSig [], r.sig, r.sig⟩ := by
      simp [chainStep, hokr]
    rw [haux]
    simp only [chainRun, hstep, List.map_cons, List.dropLast_cons₂]

/-- Witness for C1 at a concrete two-request run. -/
theorem chain_monotonicity_witness :
    (chainRun [] [⟨List.replicate 32 1, List.replicate 64 2, true⟩,
                  ⟨List.replicate 32 4, List.replicate 64 3, true⟩]).map
        ChainStepResult.envPrevSig =
      List.replicate 64 0 ::
        ((chainRun [] [⟨List.replicate 32 1, List.replicate 64 2, true⟩,
                       ⟨List.replicate 32 4, List.replicate 64 3, true⟩]).map
            ChainStepResult.envSig).dropLast :=
  chain_monotonicity _ (by decide) (by decide) (by decide)

/-- Modelled from the spec: the backend-outcome classification — `SUCCESS`
is a 2xx status; timeouts, transport errors and non-2xx statuses are
failures (`httpFailed` in the sources is not part of the files under
review). -/
def dispatchSucceeded : DispatchOutcome → Bool
  | .response status _ => 200 ≤ status && status < 300
  | _ => false

/-- C2: when the dispatch of a chained envelope fails (timeout, transport
error, or non-2xx backend status), the stored chain tip for the uid is
unchanged, so the next chained request observes the same previous-signature
field as the failing one did. -/
theorem tip_unchanged_on_failure (tip hash sig : Bytes) (o : DispatchOutcome)
    (next : ChainReq) (hfail : dispatchSucceeded o = false) :
    (chainStep tip ⟨hash, sig, dispatchSucceeded o⟩).tipAfter = tip ∧
    (chainStep (chainStep tip ⟨hash, sig, dispatchSucceeded o⟩).tipAfter next).envPrevSig =
      (chainStep tip ⟨hash, sig, dispatchSucceeded o⟩).envPrevSig := by
  simp [chainStep, hfail]

/-- Witness for C2: a backend 502 does not advance the tip. -/
theorem tip_unchanged_on_failure_witness :
    (chainStep (List.replicate 64 5)
        ⟨List.replicate 32 1, List.replicate 64 2,
          dispatchSucceeded (.response 502 [])⟩).tipAfter = List.replicate 64 5 ∧
    (chainStep (chainStep (List.replicate 64 5)
        ⟨List.replicate 32 1, List.replicate 64 2,
          dispatchSucceeded (.response 502 [])⟩).tipAfter
        ⟨List.replicate 32 9, List.replicate 64 7, true⟩).envPrevSig =
      (chainStep (List.replicate 64 5)
        ⟨List.replicate 32 1, List.replicate 64 2,
          dispatchSucceeded (.response 502 [])⟩).envPrevSig :=
  tip_unchanged_on_failure _ _ _ _ _ (by decide)

/-- C4 counterexample: a non-timeout transport failure (e.g. connection
refused — the backend unavailable) is answered with 500, not 502, and a
backend 5xx status is proxied verbatim rather than mapped to 502. -/
theorem send_upp_unavailable_not_502 :
    sendUPPStatus .netError = 500 ∧ sendUPPStatus .netError ≠ 502 ∧
    sendUPPStatus (.response 503 []) = 503 ∧ sendUPPStatus (.response 503 []) ≠ 502 := by
  decide

/-- C4 (amended): a timed-out dispatch is answered with 504; every other
transport failure is answered with 500; when the backend responds, its
status — 4xx and 5xx alike — is proxied verbatim to the caller. -/
theorem send_upp_status_mapping :
    sendUPPStatus .timeout = 504 ∧ sendUPPStatus .netError = 500 ∧
    ∀ status content, sendUPPStatus (.response status content) = status := by
  refine ⟨rfl, rfl, fun status content => rfl⟩

/-- C5 counterexample: a stored empty (length-0) signature is rejected by
`GetSignature`, and `StoreIdentity` of an otherwise valid identity with an
empty signature fails. -/
theorem empty_signature_rejected :
    exOk (getSignature []) = false ∧
    exOk (storeIdentity ⟨"a", [1], [1], [], "token"⟩) = false := by
  decide

/-- C5 (amended): a stored signature read back through `GetSignature` is
accepted if and only if it is exactly 64 bytes long — length 0 is rejected
like any other deviation — and `StoreIdentity` of an identity with an empty
signature always fails. -/
theorem signature_length_check (sig : Bytes) (id : Identity)
    (hsig : id.signature = []) :
    (exOk (getSignature sig) = true ↔ sig.length = 64) ∧
    exOk (storeIdentity id) = false := by
  constructor
  · simp only [getSignature, checkSignatureLen, signatureLength]
    by_cases h : sig.length = 64
    · simp [h, exOk]
    · simp [h, exOk]
  · simp only [storeIdentity, checkSignatureLen, signatureLength, hsig]
    by_cases h : id.authToken.length = 0
    · simp [h, exOk]
    · simp [h, exOk]

/-- Witness for C5 (amended) at a 64-byte signature and a concrete identity. -/
theorem signature_length_check_witness :
    ((exOk (getSignature (List.replicate 64 7)) = true ↔
        (List.replicate 64 7 : Bytes).length = 64) ∧
      exOk (storeIdentity ⟨"u", [1], [1], [], "t"⟩) = false) :=
  signature_length_check (List.replicate 64 7) ⟨"u", [1], [1], [], "t"⟩ rfl

/-- C3: on the signed-update route, for each of the four operations the
handler leaves the store (in particular the stored chain tip of the uid)
unchanged — as it does on every other path — and, when the request passes
authentication and hash extraction, builds a signed (not chained) envelope
whose hint corresponds to the operation: anchor yields BINARY (the route, not
the operation, determines the variant), disable DISABLE, enable ENABLE,
delete DELETE. -/
theorem update_route_signed_envelope (st : Store) (uid headerToken opParam tok : String)
    (hash : Bytes) (outcome : DispatchOutcome)
    (hlk : st.authTokens.lookup uid = some tok) (hne : tok ≠ "")
    (hhdr : headerToken = tok) (hkey : (st.privKeys.lookup uid).isSome = true)
    (hop : opParam = "anchor" ∨ opParam = "disable" ∨ opParam = "enable" ∨
      opParam = "delete") :
    (∀ opP hashRes outcome',
      (signingHandleRequest st uid headerToken opP hashRes outcome').store = st) ∧
    ∃ h, (signingHandleRequest st uid headerToken opParam (.ok hash) outcome).envelope =
        some ⟨Version.signed, uid, h, hash⟩ ∧
      (opParam = "anchor" → h = Hint.binary) ∧
      (opParam = "disable" → h = Hint.disable) ∧
      (opParam = "enable" → h = Hint.enable) ∧
      (opParam = "delete" → h = Hint.delete) := by
  have hauth : getAuthToken st uid = Except.ok tok := by
    simp [getAuthToken, hlk, string_length_ne_zero hne]
  have hchk : checkAuth headerToken tok = Except.ok headerToken := by
    simp [checkAuth, hhdr]
  obtain ⟨key, hkey'⟩ := Option.isSome_iff_exists.mp hkey
  constructor
  · intro opP hashRes outcome'
    unfold signingHandleRequest
    repeat' split <;> try rfl
  · rcases hop with hop | hop | hop | hop <;> subst hop <;> subst hhdr
    · exact ⟨Hint.binary, by simp [signingHandleRequest, hauth, hchk, getOperation,
        hkey', getSignedUPP, hintLookup], fun _ => rfl, by decide, by decide, by decide⟩
    · exact ⟨Hint.disable, by simp [signingHandleRequest, hauth, hchk, getOperation,
        hkey', getSignedUPP, hintLookup], by decide, fun _ => rfl, by decide, by decide⟩
    · exact ⟨Hint.enable, by simp [signingHandleRequest, hauth, hchk, getOperation,
        hkey', getSignedUPP, hintLookup], by decide, by decide, fun _ => rfl, by decide⟩
    · exact ⟨Hint.delete, by simp [signingHandleRequest, hauth, hchk, getOperation,
        hkey', getSignedUPP, hintLookup], by decide, by decide, by decide, fun _ => rfl⟩

/-- Witness for C3 at a concrete store and an `anchor` request on the update
route. -/
theorem update_route_signed_envelope_witness :
    (∀ opP hashRes outcome',
      (signingHandleRequest ⟨[("u", "t")], [("u", List.replicate 64 9)], [("u", [1])]⟩
          "u" "t" opP hashRes outcome').store =
        ⟨[("u", "t")], [("u", List.replicate 64 9)], [("u", [1])]⟩) ∧
    ∃ h, (signingHandleRequest ⟨[("u", "t")], [("u", List.replicate 64 9)], [("u", [1])]⟩
          "u" "t" "anchor" (.ok (List.replicate 32 5)) (.response 200 [])).envelope =
        some ⟨Version.signed, "u", h, List.replicate 32 5⟩ ∧
      ("anchor" = "anchor" → h = Hint.binary) ∧
      ("anchor" = "disable" → h = Hint.disable) ∧
      ("anchor" = "enable" → h = Hint.enable) ∧
      ("anchor" = "delete" → h = Hint.delete) :=
  update_route_signed_envelope _ "u" "t" "anchor" "t" (List.replicate 32 5)
    (.response 200 []) (by decide) (by decide) rfl (by decide) (Or.inl rfl)

/-- C8: a signing request (chained route or signed-update route) whose
`X-Auth-Token` header differs from the stored token of the addressed uid is
rejected with HTTP 401 and the plain-text body `invalid auth token`, before
any envelope is built: the chaining handler never reaches the signing step
(whatever that step would do), and the update handler builds no envelope and
leaves the store untouched. -/
theorem invalid_token_401 (st : Store) (uid headerToken tok : String)
    (hlk : st.authTokens.lookup uid = some tok) (hne : tok ≠ "")
    (hmm : headerToken ≠ tok) :
    (∀ hashRes sendChained,
      chainingHandleRequest st uid headerToken hashRes sendChained =
        ⟨⟨401, "invalid auth token"⟩, false⟩) ∧
    (∀ opParam hashRes outcome,
      (signingHandleRequest st uid headerToken opParam hashRes outcome).response =
          ⟨401, "invalid auth token"⟩ ∧
        (signingHandleRequest st uid headerToken opParam hashRes outcome).envelope =
          none ∧
        (signingHandleRequest st uid headerToken opParam hashRes outcome).store = st) := by
  have hauth : getAuthToken st uid = Except.ok tok := by
    simp [getAuthToken, hlk, string_length_ne_zero hne]
  have hchk : checkAuth headerToken tok = Except.error "invalid auth token" := by
    simp [checkAuth, Ne.symm hmm]
  constructor
  · intro hashRes sendChained
    simp [chainingHandleRequest, hauth, hchk]
  · intro opParam hashRes outcome
    refine ⟨?_, ?_, ?_⟩ <;> simp [signingHandleRequest, hauth, hchk]

/-- Witness for C8 at a concrete store and a mismatching token. -/
theorem invalid_token_401_witness :
    (∀ hashRes sendChained,
      chainingHandleRequest ⟨[("u", "t")], [], []⟩ "u" "wrong" hashRes sendChained =
        ⟨⟨401, "invalid auth token"⟩, false⟩) ∧
    (∀ opParam hashRes outcome,
      (signingHandleRequest ⟨[("u", "t")], [], []⟩ "u" "wrong" opParam hashRes
          outcome).response = ⟨401, "invalid auth token"⟩ ∧
        (signingHandleRequest ⟨[("u", "t")], [], []⟩ "u" "wrong" opParam hashRes
          outcome).envelope = none ∧
        (signingHandleRequest ⟨[("u", "t")], [], []⟩ "u" "wrong" opParam hashRes
          outcome).store = ⟨[("u", "t")], [], []⟩) :=
  invalid_token_401 ⟨[("u", "t")], [], []⟩ "u" "wrong" "t" (by decide) (by decide)
    (by decide)

/-- C7: on a `/hash` request, with content type `application/octet-stream`
the body is accepted as the hash exactly when it is 32 bytes (and the
accepted hash is the body); with content type `text/plain` the body is
hex-decoded when the transfer encoding is `hex` and base64-decoded
otherwise, and is accepted exactly when the decode succeeds with a 32-byte
result (which is the accepted hash); every other content type, decode
failure, or wrong length is rejected (the handler then answers 400). -/
theorem hash_request_accept_iff (hexD b64D : Bytes → Option Bytes)
    (ct cte : String) (body : Bytes) :
    (ct = "application/octet-stream" →
      ((exOk (getHashFromHashRequest hexD b64D ct cte body) = true ↔
          body.length = 32) ∧
        (body.length = 32 →
          getHashFromHashRequest hexD b64D ct cte body = .ok body))) ∧
    (ct = "text/plain" → cte = "hex" →
      ((exOk (getHashFromHashRequest hexD b64D ct cte body) = true ↔
          ∃ d, hexD body = some d ∧ d.length = 32) ∧
        (∀ d, hexD body = some d → d.length = 32 →
          getHashFromHashRequest hexD b64D ct cte body = .ok d))) ∧
    (ct = "text/plain" → cte ≠ "hex" →
      ((exOk (getHashFromHashRequest hexD b64D ct cte body) = true ↔
          ∃ d, b64D body = some d ∧ d.length = 32) ∧
        (∀ d, b64D body = some d → d.length = 32 →
          getHashFromHashRequest hexD b64D ct cte body = .ok d))) ∧
    (ct ≠ "text/plain" → ct ≠ "application/octet-stream" →
      exOk (getHashFromHashRequest hexD b64D ct cte body) = false) := by
  refine ⟨?_, ?_, ?_, ?_⟩
  · intro hct
    by_cases hlen : body.length = 32 <;>
      simp [getHashFromHashRequest, hct, checkHashLen, hashLen, exOk, hlen]
  · intro hct hcte
    cases hdec : hexD body with
    | none => simp [getHashFromHashRequest, hct, hcte, hdec, exOk]
    | some d =>
      by_cases hlen : d.length = 32 <;>
        simp [getHashFromHashRequest, hct, hcte, hdec, checkHashLen, hashLen, exOk,
          hlen]
  · intro hct hcte
    cases hdec : b64D body with
    | none => simp [getHashFromHashRequest, hct, hcte, hdec, exOk]
    | some d =>
      by_cases hlen : d.length = 32 <;>
        simp [getHashFromHashRequest, hct, hcte, hdec, checkHashLen, hashLen, exOk,
          hlen]
  · intro h1 h2
    simp [getHashFromHashRequest, h1, h2, exOk]

/-- Witness for C7: a raw 32-byte body on the octet-stream content type is
accepted. -/
theorem hash_request_accept_iff_witness :
    getHashFromHashRequest (fun _ => none) (fun _ => none)
      "application/octet-stream" "" (List.replicate 32 1) =
        .ok (List.replicate 32 1) :=
  ((hash_request_accept_iff (fun _ => none) (fun _ => none)
    "application/octet-stream" "" (List.replicate 32 1)).1 (by decide)).2 (by decide)

/-- C10 counterexample: a parsed configuration whose user-supplied Niomon
URL contains no dot drives the URL-derivation step of `Config.Load` into a
Go runtime panic (index out of range on `strings.Split(c.Niomon, ".")[1]`),
so `Load` is not total. -/
theorem config_load_panics_without_dot :
    configLoadChecks ⟨[("u", "t")], List.replicate 16 0, [], "nodots".data, [], []⟩ =
      .panicked "runtime error: index out of range" := by
  decide

/-- C10 (amended): the pure pipeline of `Config.Load` after parsing either
returns a configuration or an error for every input whose Niomon URL is
empty (it is then defaulted to a dotted URL) or contains at least one dot;
a Niomon URL without a dot makes the environment derivation panic. -/
theorem config_load_no_panic_with_dot (c : GoConfig)
    (h : c.niomon = [] ∨ '.' ∈ c.niomon) :
    (configLoadChecks c).isPanic = false := by
  unfold configLoadChecks
  cases hcm : checkMandatory c with
  | error e => simp [LoadOutcome.isPanic]
  | ok u =>
    have hdot : '.' ∈ defaultedNiomon c := by
      unfold defaultedNiomon
      rcases h with h0 | h1
      · rw [if_pos h0]
        unfold niomonURL
        exact List.mem_append.mpr (Or.inl (List.mem_append.mpr (Or.inl (by decide))))
      · by_cases hnil : c.niomon = []
        · rw [if_pos hnil]
          unfold niomonURL
          exact List.mem_append.mpr (Or.inl (List.mem_append.mpr (Or.inl (by decide))))
        · rw [if_neg hnil]
          exact h1
    have hlt : 1 < (goSplitDot (defaultedNiomon c)).length :=
      goSplitDot_length_ge_two hdot
    obtain ⟨v, hv⟩ : ∃ v, (goSplitDot (defaultedNiomon c))[1]? = some v :=
      ⟨_, List.getElem?_eq_some_iff.mpr ⟨hlt, rfl⟩⟩
    unfold setDefaultURLs
    rw [hv]
    by_cases hval : v = "dev".data ∨ v = "demo".data ∨ v = "prod".data
    · simp [hval, LoadOutcome.isPanic]
    · simp [hval, LoadOutcome.isPanic]

/-- Witness for C10 (amended): a dotted Niomon URL is processed without a
panic. -/
theorem config_load_no_panic_with_dot_witness :
    (configLoadChecks ⟨[("u", "t")], List.replicate 16 0, [],
        "https://niomon.dev.ubirch.com/".data, [], []⟩).isPanic = false :=
  config_load_no_panic_with_dot _ (Or.inr (by decide))

/-- C6: JSON canonicalization is invariant under key permutation — for every
well-formed JSON value (objects have unique keys at every depth, as Go's
`map[string]interface{}` guarantees after `json.Unmarshal`) and every
reordering of object entries at any nesting depth, the canonicalized
serialization is unchanged; consequently two request bodies that differ only
in key order produce the same payload hash. -/
theorem canonicalize_perm_invariant (a b : Json) (h : JPerm a b)
    (hwf : jsonWF a = true) :
    canonicalize a = canonicalize b ∧
    ∀ sha256 : String → Bytes,
      jsonPayloadHash sha256 a = jsonPayloadHash sha256 b := by
  have hc : canon a = canon b := (jperm_canon h hwf).1
  exact ⟨congrArg serialize hc, fun f => by simp [jsonPayloadHash, canonicalize, hc]⟩

/-- Witness for C6 at the spec's S6 scenario: the bodies
`(b:2, a:1)` and `(a:1, b:2)` canonicalize and hash identically. -/
theorem canonicalize_perm_invariant_witness :
    canonicalize (Json.obj [("b", Json.num "2"), ("a", Json.num "1")]) =
      canonicalize (Json.obj [("a", Json.num "1"), ("b", Json.num "2")]) ∧
    ∀ sha256 : String → Bytes,
      jsonPayloadHash sha256 (Json.obj [("b", Json.num "2"), ("a", Json.num "1")]) =
        jsonPayloadHash sha256 (Json.obj [("a", Json.num "1"), ("b", Json.num "2")]) :=
  canonicalize_perm_invariant _ _ (JPerm.obj JPermEntries.swap)
    (by simp [jsonWF, jsonWFEntries, keysNodup])

end UbirchClient
